import Mathlib

/-!
Shallow embedding of quiz_game.py, an interactive terminal trivia game.

The embedding follows the source file:
- question records (dicts in the QUESTIONS bank) with a heap of mutable
  choices lists, so that in-place mutation (random.shuffle on a list
  object) and aliasing (dict.copy is shallow) are observable;
- the answer-validation logic of run_quiz (lines 189-204);
- the per-question outcome recording (lines 206-212);
- the scoring and accuracy computations (lines 217, 222);
- the persistence helpers load_scores / save_score (lines 120-134) and
  the leaderboard ranking of show_leaderboard (line 142, 144);
- randomness (random.shuffle), the clock (datetime.now) and user input
  are passed in as oracle parameters, and file-system writes may fail,
  which models an OSError raised by open/json.dump.
-/

namespace QuizGame

/-- One record of the QUESTIONS bank: question text, a heap reference to
its (mutable) choices list, the correct answer text and a difficulty tag. -/
structure Question where
  q : String
  choicesRef : Nat
  answer : String
  difficulty : String
deriving DecidableEq, Repr

/-- The Python heap of list objects: choices lists live here and are
addressed by index, so aliasing and in-place mutation can be modelled. -/
structure QHeap where
  arrs : List (List String)
deriving DecidableEq, Repr

/-- Read the list object at address i (a dangling address reads []). -/
def heapRead (h : QHeap) (i : Nat) : List String := h.arrs.getD i []

/-- Overwrite the list object at address i in place. -/
def heapWrite (h : QHeap) (i : Nat) (v : List String) : QHeap := ⟨h.arrs.set i v⟩

/-- Allocate a fresh list object (list.copy creates one); returns the new
heap and the fresh address. -/
def heapAlloc (h : QHeap) (v : List String) : QHeap × Nat :=
  (⟨h.arrs ++ [v]⟩, h.arrs.length)

/-- One entry of the per-session detail log (lines 209 and 212). -/
structure Detail where
  question : String
  your : String
  correct : String
  result : String
deriving DecidableEq, Repr

/-- The session result record built at lines 226-233 and persisted by
save_score. Percentages are modelled as exact rationals. -/
structure Entry where
  user : String
  score : Nat
  total : Nat
  percentage : ℚ
  timestamp : String
  details : List Detail
deriving DecidableEq, Repr

/-- Python str.isdigit for ASCII digit strings: nonempty and all digits. -/
def pyIsDigit (s : String) : Bool := !s.data.isEmpty && s.data.all Char.isDigit

/-- Python int(...) applied to an ASCII digit string. -/
def pyInt (s : String) : Nat :=
  s.data.foldl (fun acc c => acc * 10 + (c.toNat - 48)) 0

/-- Drop leading whitespace from a character list. -/
def lstripL (l : List Char) : List Char := l.dropWhile Char.isWhitespace

/-- Drop trailing whitespace from a character list. -/
def rstripL (l : List Char) : List Char := (l.reverse.dropWhile Char.isWhitespace).reverse

/-- Python str.strip(): remove leading and trailing whitespace. -/
def pyStrip (s : String) : String := ⟨lstripL (rstripL s.data)⟩

/-- Python str.lower(): lowercase character by character. -/
def pyLower (s : String) : String := ⟨s.data.map Char.toLower⟩

/-- Answer validation, lines 189-204 of run_quiz. The raw user choice is
None when the question timed out; otherwise it is the stripped input.
Returns (chosen_text, correct). -/
def resolveAnswer (userChoice : Option String) (choices : List String)
    (answer : String) : Option String × Bool :=
  match userChoice with
  | none => (none, false)
  | some s =>
    if pyIsDigit s then
      let idx : Int := (pyInt s : Int) - 1
      if 0 ≤ idx ∧ idx < (choices.length : Int) then
        let ch := choices.getD idx.toNat ""
        (some ch, ch == answer)
      else
        (none, false)
    else
      if s ≠ "" then
        match choices.find? (fun ch => pyLower ch == pyLower s) with
        | some ch => (some ch, ch == answer)
        | none => (none, false)
      else
        (none, false)

/-- Outcome recording for one question, lines 206-212: the Detail pushed
onto the log and whether the score increments. Python truthiness of the
chosen string: an empty chosen string also records "No valid answer". -/
def answerStep (questionText : String) (answer : String) (choices : List String)
    (userChoice : Option String) : Detail × Bool :=
  let r := resolveAnswer userChoice choices answer
  if r.2 then
    ({ question := questionText, your := r.1.getD "", correct := answer,
       result := "correct" }, true)
  else
    ({ question := questionText,
       your := match r.1 with
               | some s => if s ≠ "" then s else "No valid answer"
               | none => "No valid answer",
       correct := answer, result := "incorrect" }, false)

/-- Answer acquisition, lines 178-186: the timed path may deliver None
(timeout), otherwise the raw string is stripped; the untimed path always
delivers a string (input() never returns None; a missing oracle value is
read as the empty string) and strips it. -/
def acquireChoice (timed : Bool) (raw : Option String) : Option String :=
  if timed then
    match raw with
    | none => none
    | some s => some (pyStrip s)
  else
    some (pyStrip (raw.getD ""))

/-- The question loop of run_quiz (lines 167-215). For each question of the
shuffled pool, indexed from 1: copy its choices list into a fresh heap cell
(q.choices.copy()), shuffle that fresh cell in place (random.shuffle using
the oracle sc), acquire and strip the answer, and record the outcome.
Returns (score, detail log, final heap). -/
def runLoopGo (timed : Bool) (sc : Nat → List String → List String)
    (inp : Nat → Option String) : List Question → Nat → QHeap →
    Nat × List Detail × QHeap
  | [], _, h => (0, [], h)
  | qq :: rest, i, h =>
    let pa := heapAlloc h (heapRead h qq.choicesRef)
    let h2 := heapWrite pa.1 pa.2 (sc i (heapRead pa.1 pa.2))
    let choices := heapRead h2 pa.2
    let step := answerStep qq.q qq.answer choices (acquireChoice timed (inp i))
    let rest' := runLoopGo timed sc inp rest (i + 1) h2
    ((if step.2 then 1 else 0) + rest'.1, step.1 :: rest'.2.1, rest'.2.2)

/-- The persisted leaderboard file quiz_scores.json: absent, unparsable, or
holding a list of entries. -/
inductive FileState where
  | missing
  | corrupt
  | stored (entries : List Entry)
deriving DecidableEq, Repr

/-- load_scores (lines 120-127): a missing or unparsable file reads as []. -/
def load_scores : FileState → List Entry
  | .missing => []
  | .corrupt => []
  | .stored l => l

/-- save_score (lines 130-134): load all, append, overwrite the whole file.
writeOk = false models open/json.dump raising (disk full, permissions);
the exception is not caught anywhere in the source except KeyboardInterrupt
at top level, so it propagates. -/
def save_score (writeOk : Bool) (entry : Entry) (fs : FileState) :
    Except Unit FileState :=
  if writeOk then .ok (.stored (load_scores fs ++ [entry])) else .error ()

/-- The accuracy printed at line 222: recomputed from the detail log as the
count of entries whose result is "correct", divided by total, times 100. -/
def accuracyOf (details : List Detail) (total : Nat) : ℚ :=
  ((details.filter fun d => d.result == "correct").length : ℚ) / (total : ℚ) * 100

/-- run_quiz (lines 150-236). Randomness (random.shuffle of the pool and of
each choices copy), per-question raw input, the timestamp and write success
are oracle parameters. Returns, unless a write error propagates, the
optional session entry (None when the pool is empty, line 155), the file
state and the heap. -/
def run_quiz (user difficulty : String) (timed : Bool) (numQuestions : Option Nat)
    (bank : List Question) (sp : List Question → List Question)
    (sc : Nat → List String → List String) (inp : Nat → Option String)
    (now : String) (writeOk : Bool) (fs : FileState) (h : QHeap) :
    Except Unit (Option Entry × FileState × QHeap) :=
  let pool0 := bank.filter fun qq => difficulty == "all" || qq.difficulty == difficulty
  if pool0.isEmpty then
    .ok (none, fs, h)
  else
    let pool1 := sp pool0
    let pool : List Question := match numQuestions with
      | some k => if k ≠ 0 then pool1.take k else pool1
      | none => pool1
    let total : Nat := pool.length
    let res := runLoopGo timed sc inp pool 1 h
    let percentage : ℚ := if total ≠ 0 then (res.1 : ℚ) / (total : ℚ) * 100 else 0
    let entry : Entry :=
      { user := user, score := res.1, total := total, percentage := percentage,
        timestamp := now, details := res.2.1 }
    match save_score writeOk entry fs with
    | .ok fs' => .ok (some entry, fs', res.2.2)
    | .error e => .error e

/-- The comparison realized by sorted(data, key=percentage, reverse=True) on
index-tagged records: higher percentage first; Python's sort being stable,
equal percentages keep ascending original position. -/
def keyLe (a b : Nat × Entry) : Prop :=
  b.2.percentage < a.2.percentage ∨ (a.2.percentage = b.2.percentage ∧ a.1 ≤ b.1)

instance : DecidableRel keyLe := fun a b =>
  inferInstanceAs (Decidable
    (b.2.percentage < a.2.percentage ∨ (a.2.percentage = b.2.percentage ∧ a.1 ≤ b.1)))

instance : IsTotal (Nat × Entry) keyLe where
  total a b := by
    unfold keyLe
    rcases lt_trichotomy a.2.percentage b.2.percentage with hlt | heq | hgt
    · exact Or.inr (Or.inl hlt)
    · rcases Nat.le_total a.1 b.1 with hle | hle
      · exact Or.inl (Or.inr ⟨heq, hle⟩)
      · exact Or.inr (Or.inr ⟨heq.symm, hle⟩)
    · exact Or.inl (Or.inl hgt)

instance : IsTrans (Nat × Entry) keyLe where
  trans a b c hab hbc := by
    unfold keyLe at *
    rcases hab with hab | ⟨hab, iab⟩
    · rcases hbc with hbc | ⟨hbc, _⟩
      · exact Or.inl (lt_trans hbc hab)
      · exact Or.inl (hbc ▸ hab)
    · rcases hbc with hbc | ⟨hbc, ibc⟩
      · exact Or.inl (hab ▸ hbc)
      · exact Or.inr ⟨hab.trans hbc, le_trans iab ibc⟩

/-- The stable descending sort performed at line 142, on index-tagged
records (the index records original insertion order). -/
def sortedIndexed (data : List Entry) : List (Nat × Entry) :=
  (data.enum).insertionSort keyLe

/-- topN of show_leaderboard (lines 142-144): sort by percentage descending
(stable) and keep the first n records. -/
def topN (n : Nat) (data : List Entry) : List Entry :=
  ((sortedIndexed data).map Prod.snd).take n

/-! ### Helper lemmas -/

/-- The Detail recorded for a question carries result "correct" exactly when
the score increments. -/
theorem answerStep_result (qt a : String) (choices : List String) (uc : Option String) :
    ((answerStep qt a choices uc).1.result == "correct") = (answerStep qt a choices uc).2 := by
  simp only [answerStep]
  cases hb : (resolveAnswer uc choices a).2 <;> simp [hb]

/-- When the resolver finds no valid choice it also reports incorrect. -/
theorem resolveAnswer_chosen_none (uc : Option String) (choices : List String) (a : String)
    (hnone : (resolveAnswer uc choices a).1 = none) :
    resolveAnswer uc choices a = (none, false) := by
  cases uc with
  | none => rfl
  | some s =>
    simp only [resolveAnswer] at hnone ⊢
    by_cases hd : pyIsDigit s = true
    · simp only [hd, if_true] at hnone ⊢
      by_cases hr : 0 ≤ (pyInt s : Int) - 1 ∧ (pyInt s : Int) - 1 < (choices.length : Int)
      · rw [if_pos hr] at hnone; simp at hnone
      · rw [if_neg hr]
    · simp only [hd, Bool.false_eq_true, if_false] at hnone ⊢
      by_cases hs : s ≠ ""
      · rw [if_pos hs] at hnone ⊢
        rcases hfind : choices.find? (fun ch => pyLower ch == pyLower s) with _ | ch
        · rfl
        · rw [hfind] at hnone; simp at hnone
      · rw [if_neg hs]

/-- In the question loop, the score equals the number of detail-log entries
whose result is "correct", and there is one detail entry per question. -/
theorem runLoopGo_count (timed : Bool) (sc : Nat → List String → List String)
    (inp : Nat → Option String) :
    ∀ (pool : List Question) (i : Nat) (h : QHeap),
      ((runLoopGo timed sc inp pool i h).2.1.filter fun d => d.result == "correct").length
          = (runLoopGo timed sc inp pool i h).1 ∧
      (runLoopGo timed sc inp pool i h).2.1.length = pool.length := by
  intro pool
  induction pool with
  | nil => intro i h; simp [runLoopGo]
  | cons qq rest ih =>
    intro i h
    simp only [runLoopGo]
    rcases ih (i + 1) (heapWrite (heapAlloc h (heapRead h qq.choicesRef)).1
      (heapAlloc h (heapRead h qq.choicesRef)).2
      (sc i (heapRead (heapAlloc h (heapRead h qq.choicesRef)).1
        (heapAlloc h (heapRead h qq.choicesRef)).2))) with ⟨ihc, ihl⟩
    constructor
    · rw [List.filter_cons, answerStep_result]
      cases hb : (answerStep qq.q qq.answer _ (acquireChoice timed (inp i))).2 <;>
        simp [hb, ihc] <;> omega
    · simp [ihl]

/-- The question loop only writes to freshly allocated heap cells: every cell
of the initial heap is unchanged in the final heap. -/
theorem runLoopGo_frame (timed : Bool) (sc : Nat → List String → List String)
    (inp : Nat → Option String) :
    ∀ (pool : List Question) (i : Nat) (h : QHeap) (j : Nat), j < h.arrs.length →
      ((runLoopGo timed sc inp pool i h).2.2).arrs[j]? = h.arrs[j]? := by
  intro pool
  induction pool with
  | nil => intro i h j hj; rfl
  | cons qq rest ih =>
    intro i h j hj
    simp only [runLoopGo, heapAlloc, heapWrite]
    rw [ih (i + 1) _ j (by simp; omega)]
    rw [List.getElem?_set_ne (by omega)]
    exact List.getElem?_append_left hj

/-- Dropping leading whitespace ignores a fully-whitespace prefix. -/
theorem dropWhile_ws_append {ws l : List Char} (h1 : ∀ c ∈ ws, c.isWhitespace) :
    (ws ++ l).dropWhile Char.isWhitespace = l.dropWhile Char.isWhitespace :=
  List.dropWhile_append_of_pos h1

/-- A fully-whitespace list strips to nothing. -/
theorem dropWhile_ws_nil {ws : List Char} (h1 : ∀ c ∈ ws, c.isWhitespace) :
    ws.dropWhile Char.isWhitespace = [] := by
  have := @List.dropWhile_append_of_pos _ Char.isWhitespace ws [] h1
  simpa using this

/-- Stripping is unaffected by surrounding whitespace. -/
theorem stripL_pad {ws l ws' : List Char}
    (h1 : ∀ c ∈ ws, c.isWhitespace) (h2 : ∀ c ∈ ws', c.isWhitespace) :
    lstripL (rstripL (ws ++ (l ++ ws'))) = lstripL (rstripL l) := by
  unfold lstripL rstripL
  rw [List.reverse_append, List.reverse_append, List.append_assoc]
  rw [dropWhile_ws_append (fun c hc => h2 c (List.mem_reverse.mp hc))]
  rw [List.dropWhile_append]
  by_cases he : (l.reverse.dropWhile Char.isWhitespace).isEmpty = true
  · rw [if_pos he]
    have hnil : l.reverse.dropWhile Char.isWhitespace = [] := List.isEmpty_iff.mp he
    rw [hnil, dropWhile_ws_nil (fun c hc => h1 c (List.mem_reverse.mp hc))]
  · rw [if_neg he]
    rw [List.reverse_append, List.reverse_reverse]
    rw [dropWhile_ws_append h1]

/-- Python str.strip is unaffected by surrounding whitespace. -/
theorem pyStrip_pad (ws s ws' : String)
    (h1 : ws.data.all Char.isWhitespace = true) (h2 : ws'.data.all Char.isWhitespace = true) :
    pyStrip (ws ++ s ++ ws') = pyStrip s := by
  unfold pyStrip
  congr 1
  have hd : (ws ++ s ++ ws').data = ws.data ++ (s.data ++ ws'.data) := by
    simp [String.data_append]
  rw [hd]
  exact stripL_pad (List.all_eq_true.mp h1) (List.all_eq_true.mp h2)

/-- Both acquisition paths strip a delivered input string. -/
theorem acquireChoice_some (timed : Bool) (s : String) :
    acquireChoice timed (some s) = some (pyStrip s) := by
  cases timed <;> rfl

/-! ### Claim theorems -/

/-- Claim C1 counterexample: the raw input "7" is numeric and out of range for the
two presented options ["7", "8"], and a case-insensitive full-string match
against the options would find "7"; yet the resolver returns
chosenText = none, correct = false: an out-of-range numeric input does NOT
go through the text-fallback path, contrary to the claim. -/
theorem C1_counterexample :
    pyIsDigit "7" = true ∧
    ¬(1 ≤ pyInt "7" ∧ pyInt "7" ≤ (["7", "8"] : List String).length) ∧
    (["7", "8"] : List String).find? (fun ch => pyLower ch == pyLower "7") = some "7" ∧
    resolveAnswer (some "7") ["7", "8"] "7" = (none, false) := by decide

/-- Claim C1 (amended): a nonempty NON-numeric raw input is resolved by
case-insensitive exact full-string match against the presented options in
presentation order, first match winning, with correct = (match == correctText)
and no match giving (none, false); a numeric but OUT-OF-RANGE input yields
chosenText = none, correct = false directly, without attempting the text
fallback; empty or absent input also yields (none, false). -/
theorem C1_resolver_fallback :
    (∀ (s : String) (choices : List String) (answer : String),
        pyIsDigit s = true → ¬(1 ≤ pyInt s ∧ pyInt s ≤ choices.length) →
        resolveAnswer (some s) choices answer = (none, false)) ∧
    (∀ (s : String) (choices : List String) (answer : String),
        s ≠ "" → pyIsDigit s = false →
        resolveAnswer (some s) choices answer =
          (match choices.find? fun ch => pyLower ch == pyLower s with
           | some ch => (some ch, ch == answer)
           | none => (none, false))) ∧
    (∀ (choices : List String) (answer : String),
        resolveAnswer (some "") choices answer = (none, false)) ∧
    (∀ (choices : List String) (answer : String),
        resolveAnswer none choices answer = (none, false)) := by
  refine ⟨?_, ?_, fun choices answer => rfl, fun choices answer => rfl⟩
  · intro s choices answer hd hrange
    simp only [resolveAnswer, hd, if_true]
    rw [if_neg (by omega)]
  · intro s choices answer hs hd
    simp only [resolveAnswer, hd, Bool.false_eq_true, if_false]
    rw [if_pos hs]

/-- Claim C1 witness: both amended paths at concrete inputs. -/
theorem C1_witness :
    resolveAnswer (some "9") ["A", "B"] "A" = (none, false) ∧
    resolveAnswer (some "xyz") ["A", "B"] "A" = (none, false) :=
  ⟨C1_resolver_fallback.1 "9" ["A", "B"] "A" (by decide) (by decide),
   by rw [C1_resolver_fallback.2.1 "xyz" ["A", "B"] "A" (by decide) (by decide)]; decide⟩

/-- Claim C3 counterexample: a question with no valid answer records the string
"No valid answer" (capital N), not the claimed exact string
"no valid answer". -/
theorem C3_counterexample :
    (answerStep "Q" "A" ["A", "B"] none).1.your = "No valid answer" ∧
    "No valid answer" ≠ "no valid answer" := by decide

/-- Claim C3 (amended): whenever the resolver finds no valid choice (absent/empty
input, out-of-range number, or unmatched text), the detail-log record has
your = "No valid answer" (capital N) and result = "incorrect", and the score
does not increment. -/
theorem C3_no_valid_answer : ∀ (qt answer : String) (choices : List String)
    (uc : Option String),
    (resolveAnswer uc choices answer).1 = none →
    answerStep qt answer choices uc =
      ({ question := qt, your := "No valid answer", correct := answer,
         result := "incorrect" }, false) := by
  intro qt answer choices uc hnone
  have h2 := resolveAnswer_chosen_none uc choices answer hnone
  simp [answerStep, h2]

/-- Claim C3 witness: timed-out input on a concrete question. -/
theorem C3_witness :
    answerStep "Q" "A" ["A", "B"] none =
      ({ question := "Q", your := "No valid answer", correct := "A",
         result := "incorrect" }, false) :=
  C3_no_valid_answer "Q" "A" ["A", "B"] none rfl

/-- Claim C8: an input that is a digit string denoting k with 1 ≤ k ≤ number of
presented options selects option k-1 (0-based), and correctness is exact
case-sensitive equality with the correct text; including the two concrete
examples from the spec. -/
theorem C8_numeric_path :
    (∀ (s : String) (choices : List String) (answer : String) (k : Nat),
        pyIsDigit s = true → pyInt s = k → 1 ≤ k → k ≤ choices.length →
        resolveAnswer (some s) choices answer =
          (some (choices.getD (k - 1) ""), choices.getD (k - 1) "" == answer)) ∧
    resolveAnswer (some "1") ["B", "A", "C", "D"] "A" = (some "B", false) ∧
    resolveAnswer (some "2") ["B", "A", "C", "D"] "A" = (some "A", true) := by
  refine ⟨?_, by decide, by decide⟩
  intro s choices answer k hd hk h1 h2
  subst hk
  simp only [resolveAnswer, hd, if_true]
  rw [if_pos (by omega)]
  have ht : ((pyInt s : Int) - 1).toNat = pyInt s - 1 := by omega
  rw [ht]

/-- Claim C8 witness: the numeric path applied at input "2". -/
theorem C8_witness :
    resolveAnswer (some "2") ["B", "A", "C", "D"] "A" =
      (some ((["B", "A", "C", "D"] : List String).getD (2 - 1) ""),
        (["B", "A", "C", "D"] : List String).getD (2 - 1) "" == "A") :=
  C8_numeric_path.1 "2" ["B", "A", "C", "D"] "A" 2 (by decide) (by decide)
    (by decide) (by decide)

/-- Claim C10: raw input is stripped of surrounding whitespace in both the timed
and the untimed acquisition path, so a padded input resolves exactly like
the unpadded one. -/
theorem C10_strip_invariance :
    ∀ (timed : Bool) (ws1 s ws2 : String) (qt answer : String) (choices : List String),
      ws1.data.all Char.isWhitespace = true → ws2.data.all Char.isWhitespace = true →
      answerStep qt answer choices (acquireChoice timed (some (ws1 ++ s ++ ws2))) =
        answerStep qt answer choices (acquireChoice timed (some s)) := by
  intro timed ws1 s ws2 qt answer choices h1 h2
  rw [acquireChoice_some, acquireChoice_some, pyStrip_pad ws1 s ws2 h1 h2]

/-- Claim C10 witness: " 2 " behaves exactly like "2" (untimed path). -/
theorem C10_witness :
    answerStep "Q" "A" ["A", "B"] (acquireChoice false (some (" " ++ "2" ++ " "))) =
      answerStep "Q" "A" ["A", "B"] (acquireChoice false (some "2")) :=
  C10_strip_invariance false " " "2" " " "Q" "A" ["A", "B"] (by decide) (by decide)

/-- Concrete leaderboard records for the C5 example: distinct payloads with
the given percentages, listed in insertion order. -/
def exRec (k : Nat) (p : ℚ) : Entry :=
  { user := "r", score := k, total := 10, percentage := p, timestamp := "", details := [] }

/-- Claim C5: topN sorts by percentage descending; ties between equal percentages
keep their original insertion order (the index-tagged sorted list has
strictly increasing original indices on ties); the result is truncated to at
most n records; and on percentages [50, 90, 90, 30] with n = 2 the result is
record #2 then record #3. -/
theorem C5_topN_spec :
    (∀ (data : List Entry) (n : Nat),
        (topN n data).length = min n data.length ∧
        (sortedIndexed data).Perm data.enum ∧
        (sortedIndexed data).Pairwise (fun a b => b.2.percentage ≤ a.2.percentage) ∧
        (sortedIndexed data).Pairwise
          (fun a b => a.2.percentage = b.2.percentage → a.1 < b.1)) ∧
    topN 2 [exRec 1 50, exRec 2 90, exRec 3 90, exRec 4 30] =
      [exRec 2 90, exRec 3 90] := by
  constructor
  · intro data n
    have hperm : (sortedIndexed data).Perm data.enum :=
      List.perm_insertionSort keyLe data.enum
    have hsorted : (sortedIndexed data).Pairwise keyLe :=
      List.sorted_insertionSort keyLe data.enum
    refine ⟨?_, hperm, ?_, ?_⟩
    · rw [topN, List.length_take, List.length_map, hperm.length_eq, List.enum_length]
    · refine hsorted.imp ?_
      intro a b hk
      rcases hk with hlt | ⟨heq, _⟩
      · exact le_of_lt hlt
      · exact le_of_eq heq.symm
    · have hnd : ((sortedIndexed data).map Prod.fst).Nodup :=
        ((hperm.map Prod.fst).nodup_iff).mpr (List.nodup_enum_map_fst data)
      have hne : (sortedIndexed data).Pairwise (fun a b => a.1 ≠ b.1) :=
        List.pairwise_map.mp hnd
      refine (hsorted.and hne).imp ?_
      intro a b hk heq
      rcases hk with ⟨hlt | ⟨_, hle⟩, hab⟩
      · exact absurd hlt (by rw [heq]; exact lt_irrefl _)
      · exact lt_of_le_of_ne hle hab
  · decide

/-- Claim C5 witness: the length bound at a concrete leaderboard. -/
theorem C5_witness :
    (topN 2 [exRec 1 50, exRec 2 90, exRec 3 90, exRec 4 30]).length =
      min 2 ([exRec 1 50, exRec 2 90, exRec 3 90, exRec 4 30] : List Entry).length :=
  (C5_topN_spec.1 [exRec 1 50, exRec 2 90, exRec 3 90, exRec 4 30] 2).1

/-- Claim C6: a successful append followed by load yields the previous records
unchanged and in order, with the appended record (equal by value) last. -/
theorem C6_append_load_roundtrip :
    ∀ (e : Entry) (fs fs' : FileState),
      save_score true e fs = .ok fs' →
      load_scores fs' = load_scores fs ++ [e] ∧
      (load_scores fs').getLast? = some e := by
  intro e fs fs' hsave
  simp only [save_score, if_true, Except.ok.injEq] at hsave
  subst hsave
  exact ⟨rfl, List.getLast?_concat _⟩

/-- Concrete session record used in witnesses. -/
def entry0 : Entry :=
  { user := "u", score := 0, total := 1, percentage := 0, timestamp := "t", details := [] }

/-- Claim C6 witness: appending to an absent store. -/
theorem C6_witness :
    load_scores (FileState.stored ([] ++ [entry0])) =
      load_scores FileState.missing ++ [entry0] ∧
    (load_scores (FileState.stored ([] ++ [entry0]))).getLast? = some entry0 :=
  C6_append_load_roundtrip entry0 FileState.missing (FileState.stored ([] ++ [entry0])) rfl

/-- The score never exceeds the number of questions asked. -/
theorem runLoopGo_score_le (timed : Bool) (sc : Nat → List String → List String)
    (inp : Nat → Option String) (pool : List Question) (i : Nat) (h : QHeap) :
    (runLoopGo timed sc inp pool i h).1 ≤ pool.length := by
  have hc := runLoopGo_count timed sc inp pool i h
  calc (runLoopGo timed sc inp pool i h).1
      = ((runLoopGo timed sc inp pool i h).2.1.filter fun d =>
          d.result == "correct").length := hc.1.symm
    _ ≤ (runLoopGo timed sc inp pool i h).2.1.length := List.length_filter_le _ _
    _ = pool.length := hc.2

/-- The accuracy recomputed from the detail log coincides with the score-based
ratio. -/
theorem accuracyOf_runLoopGo (timed : Bool) (sc : Nat → List String → List String)
    (inp : Nat → Option String) (pool : List Question) (i : Nat) (h : QHeap) :
    accuracyOf (runLoopGo timed sc inp pool i h).2.1 pool.length =
      ((runLoopGo timed sc inp pool i h).1 : ℚ) / (pool.length : ℚ) * 100 := by
  unfold accuracyOf
  rw [(runLoopGo_count timed sc inp pool i h).1]

/-- The invariants of a finalized entry, for an arbitrary selected pool. -/
theorem entry_invariants (user now : String) (timed : Bool)
    (sc : Nat → List String → List String) (inp : Nat → Option String)
    (pool : List Question) (h : QHeap) (e : Entry)
    (he : ({ user := user, score := (runLoopGo timed sc inp pool 1 h).1,
             total := pool.length,
             percentage := if pool.length ≠ 0 then
                 ((runLoopGo timed sc inp pool 1 h).1 : ℚ) / (pool.length : ℚ) * 100
               else 0,
             timestamp := now,
             details := (runLoopGo timed sc inp pool 1 h).2.1 } : Entry) = e) :
    0 ≤ e.score ∧ e.score ≤ e.total ∧
    accuracyOf e.details e.total = e.percentage ∧
    e.percentage = (e.score : ℚ) / (e.total : ℚ) * 100 := by
  subst he
  dsimp only
  refine ⟨Nat.zero_le _, runLoopGo_score_le _ _ _ _ _ _, ?_, ?_⟩
  · rw [accuracyOf_runLoopGo]
    by_cases h0 : pool.length = 0
    · rw [h0]
      simp
    · rw [if_pos h0]
  · by_cases h0 : pool.length = 0
    · rw [h0]
      simp
    · rw [if_pos h0]

/-- Claim C2: for every session that finalizes, 0 ≤ score ≤ total, and the
independently recomputed accuracy (count of detail-log entries with result
"correct", over total, times 100) equals percentage = score/total*100
exactly. -/
theorem C2_score_accuracy :
    ∀ (user difficulty : String) (timed : Bool) (nq : Option Nat)
      (bank : List Question) (sp : List Question → List Question)
      (sc : Nat → List String → List String) (inp : Nat → Option String)
      (now : String) (wk : Bool) (fs : FileState) (h : QHeap)
      (e : Entry) (fs' : FileState) (h' : QHeap),
      run_quiz user difficulty timed nq bank sp sc inp now wk fs h
        = .ok (some e, fs', h') →
      0 ≤ e.score ∧ e.score ≤ e.total ∧
      accuracyOf e.details e.total = e.percentage ∧
      e.percentage = (e.score : ℚ) / (e.total : ℚ) * 100 := by
  intro user difficulty timed nq bank sp sc inp now wk fs h e fs' h' hrun
  simp only [run_quiz] at hrun
  by_cases hpool : (bank.filter fun qq =>
      difficulty == "all" || qq.difficulty == difficulty).isEmpty = true
  · rw [if_pos hpool] at hrun
    simp at hrun
  · rw [if_neg hpool] at hrun
    cases wk with
    | false => simp [save_score] at hrun
    | true =>
      simp only [save_score, if_true, Except.ok.injEq, Prod.mk.injEq,
        Option.some.injEq] at hrun
      exact entry_invariants _ _ _ _ _ _ _ _ hrun.1

/-- Concrete one-question bank entry used in witnesses. -/
def q0 : Question := { q := "Q", choicesRef := 0, answer := "A", difficulty := "easy" }

/-- The entry produced by the concrete witness session: one question whose
shuffled options are ["B", "A"], answered "1" (choosing "B", incorrect). -/
def entryE : Entry :=
  { user := "u", score := 0, total := 1,
    percentage := ((0 : ℕ) : ℚ) / ((1 : ℕ) : ℚ) * 100, timestamp := "t",
    details := [{ question := "Q", your := "B", correct := "A", result := "incorrect" }] }

/-- Claim C2 witness: the invariants at a concrete completed session. -/
theorem C2_witness :
    0 ≤ entryE.score ∧ entryE.score ≤ entryE.total ∧
    accuracyOf entryE.details entryE.total = entryE.percentage ∧
    entryE.percentage = (entryE.score : ℚ) / (entryE.total : ℚ) * 100 :=
  C2_score_accuracy "u" "all" false none [q0] id (fun _ l => l.reverse)
    (fun _ => some "1") "t" true FileState.missing ⟨[["A", "B"]]⟩ entryE
    (FileState.stored [entryE]) ⟨[["A", "B"], ["B", "A"]]⟩ rfl

/-- Claim C4 counterexample: at a concrete finished session whose store write
fails, run_quiz propagates the error instead of returning the session
record with a warning; the claim predicts a normal return carrying the
record. -/
theorem C4_counterexample :
    run_quiz "u" "all" false none [q0] id (fun _ l => l.reverse) (fun _ => some "1")
      "t" false FileState.missing ⟨[["A", "B"]]⟩ = .error () := rfl

/-- Claim C4 (amended): if persisting the finished session record fails, the
exception propagates out of run_quiz (nothing catches it except the
top-level KeyboardInterrupt handler): no warning is shown and the session
result record is NOT returned to the caller. -/
theorem C4_write_failure_propagates :
    ∀ (user difficulty : String) (timed : Bool) (nq : Option Nat)
      (bank : List Question) (sp : List Question → List Question)
      (sc : Nat → List String → List String) (inp : Nat → Option String)
      (now : String) (fs : FileState) (h : QHeap),
      (bank.filter fun qq => difficulty == "all" || qq.difficulty == difficulty) ≠ [] →
      run_quiz user difficulty timed nq bank sp sc inp now false fs h = .error () := by
  intro user difficulty timed nq bank sp sc inp now fs h hne
  have hni : ¬((bank.filter fun qq =>
      difficulty == "all" || qq.difficulty == difficulty).isEmpty = true) := by
    simpa [List.isEmpty_iff] using hne
  simp only [run_quiz]
  rw [if_neg hni]
  rfl

/-- Claim C4 witness: the amended behaviour at a concrete session. -/
theorem C4_witness :
    run_quiz "u" "all" false none [q0] id (fun _ l => l) (fun _ => some "1")
      "t" false FileState.missing ⟨[["A", "B"]]⟩ = .error () :=
  C4_write_failure_propagates "u" "all" false none [q0] id (fun _ l => l)
    (fun _ => some "1") "t" FileState.missing ⟨[["A", "B"]]⟩ (by decide)

/-- Claim C7: with an empty filtered pool the session aborts: no questions are
asked (the heap is untouched), no result record is produced, and nothing is
persisted (the file state is unchanged). -/
theorem C7_empty_pool :
    ∀ (user difficulty : String) (timed : Bool) (nq : Option Nat)
      (bank : List Question) (sp : List Question → List Question)
      (sc : Nat → List String → List String) (inp : Nat → Option String)
      (now : String) (wk : Bool) (fs : FileState) (h : QHeap),
      (bank.filter fun qq => difficulty == "all" || qq.difficulty == difficulty) = [] →
      run_quiz user difficulty timed nq bank sp sc inp now wk fs h = .ok (none, fs, h) := by
  intro user difficulty timed nq bank sp sc inp now wk fs h hempty
  simp [run_quiz, hempty]

/-- Claim C7 witness: requesting difficulty "hard" against an easy-only bank. -/
theorem C7_witness :
    run_quiz "u" "hard" false none [q0] id (fun _ l => l) (fun _ => some "1") "t" true
      FileState.missing ⟨[["A", "B"]]⟩ = .ok (none, FileState.missing, ⟨[["A", "B"]]⟩) :=
  C7_empty_pool "u" "hard" false none [q0] id (fun _ l => l) (fun _ => some "1") "t"
    true FileState.missing ⟨[["A", "B"]]⟩ (by decide)

/-- Claim C9: a session never mutates the question bank's choices lists: every
heap cell that existed before the session (in particular every bank
question's options list) is unchanged afterwards — shuffling operates on a
per-question copy. -/
theorem C9_bank_unmutated :
    ∀ (user difficulty : String) (timed : Bool) (nq : Option Nat)
      (bank : List Question) (sp : List Question → List Question)
      (sc : Nat → List String → List String) (inp : Nat → Option String)
      (now : String) (wk : Bool) (fs : FileState) (h : QHeap)
      (r : Option Entry) (fs' : FileState) (h' : QHeap),
      run_quiz user difficulty timed nq bank sp sc inp now wk fs h = .ok (r, fs', h') →
      ∀ qq ∈ bank, qq.choicesRef < h.arrs.length →
        heapRead h' qq.choicesRef = heapRead h qq.choicesRef := by
  intro user difficulty timed nq bank sp sc inp now wk fs h r fs' h' hrun qq hqq href
  simp only [run_quiz] at hrun
  by_cases hpool : (bank.filter fun qq =>
      difficulty == "all" || qq.difficulty == difficulty).isEmpty = true
  · rw [if_pos hpool] at hrun
    simp only [Except.ok.injEq, Prod.mk.injEq] at hrun
    obtain ⟨-, -, hh⟩ := hrun
    rw [← hh]
  · rw [if_neg hpool] at hrun
    cases wk with
    | false => simp [save_score] at hrun
    | true =>
      simp only [save_score, if_true, Except.ok.injEq, Prod.mk.injEq] at hrun
      obtain ⟨-, -, hh⟩ := hrun
      rw [← hh]
      unfold heapRead
      rw [List.getD_eq_getElem?_getD, List.getD_eq_getElem?_getD,
        runLoopGo_frame timed sc inp _ 1 h _ href]

/-- Claim C9 witness: after the concrete witness session (which shuffles a copy of
the options in a fresh cell), the bank's cell 0 still reads ["A", "B"]. -/
theorem C9_witness :
    heapRead ⟨[["A", "B"], ["B", "A"]]⟩ q0.choicesRef =
      heapRead (⟨[["A", "B"]]⟩ : QHeap) q0.choicesRef :=
  C9_bank_unmutated "u" "all" false none [q0] id (fun _ l => l.reverse)
    (fun _ => some "1") "t" true FileState.missing ⟨[["A", "B"]]⟩ (some entryE)
    (FileState.stored [entryE]) ⟨[["A", "B"], ["B", "A"]]⟩ rfl q0 (by decide) (by decide)

end QuizGame
